import Mathlib

set_option autoImplicit false

/-!
Verification of the `asynctask` package (manager.go, context.go): a shallow
embedding of the task manager state, its operations (Async, Defer, Await,
AwaitAll, Cancel, Prune), the wrapper combinators (WithRetry, WithTimeout)
and the construction options, together with theorems settling the
specification claims about them.
-/

namespace Asynctask

/-- Model of Go errors produced by the package.  Sentinel errors are the
package-level `Err*` values and the two context errors; the wrapping
constructors mirror the individual `fmt.Errorf` call sites, recording which
inner errors are wrapped with the `%w` verb (and therefore visible to
`errors.Is`). -/
inductive GErr where
  /-- ErrTaskTimeout sentinel. -/
  | taskTimeout
  /-- ErrTaskFailed sentinel. -/
  | taskFailed
  /-- ErrTaskNotFound sentinel. -/
  | taskNotFound
  /-- ErrTaskCanceled sentinel. -/
  | taskCanceled
  /-- ErrTaskPanicked sentinel. -/
  | taskPanicked
  /-- context.Canceled. -/
  | ctxCanceled
  /-- context.DeadlineExceeded. -/
  | ctxDeadline
  /-- An arbitrary error returned by user code, identified by a code. -/
  | user (code : Nat)
  /-- fmt.Errorf with a single %w and no extra text, as in
  fmt.Errorf of ErrTaskCanceled at the semaphore-acquisition path. -/
  | wrapOnly (inner : GErr)
  /-- fmt.Errorf wrapping ErrTaskCanceled and quoting the context error
  textually (%v), as in the worker when the task scope fired. -/
  | canceledWrapCtx (ctxErr : GErr)
  /-- fmt.Errorf wrapping ErrTaskPanicked and quoting the panic value (%v). -/
  | panickedWrap (panicValue : Nat)
  /-- Await success-with-error path: task id, then ErrTaskFailed and the
  stored task error, both wrapped with %w. -/
  | awaitFailed (id : Nat) (inner : GErr)
  /-- Await deadline path: task id, then ErrTaskTimeout wrapped with %w. -/
  | awaitTimeout (id : Nat)
  /-- Await cancellation path: task id, ErrTaskCanceled wrapped with %w,
  context error quoted textually. -/
  | awaitCanceled (id : Nat) (ctxErr : GErr)
  /-- WithRetry exhaustion: the retries count appears in the message and the
  last attempt error is wrapped with %w. -/
  | retryExhausted (retries : Nat) (inner : GErr)
  /-- WithTimeout deadline path: ErrTaskTimeout wrapped with %w, the timeout
  value quoted in the message. -/
  | timeoutExceeded (timeout : Nat)
  /-- AwaitAll waiter wrapper: task id, inner error wrapped with %w. -/
  | awaitAllWrap (id : Nat) (inner : GErr)
deriving DecidableEq, Repr

/-- All errors reachable from an error by repeatedly unwrapping the targets
of %w verbs; membership in this list models a true errors.Is test. -/
def errIsSet : GErr → List GErr
  | .wrapOnly e => .wrapOnly e :: errIsSet e
  | .canceledWrapCtx c => [.canceledWrapCtx c, .taskCanceled]
  | .panickedWrap v => [.panickedWrap v, .taskPanicked]
  | .awaitFailed id e => .awaitFailed id e :: .taskFailed :: errIsSet e
  | .awaitTimeout id => [.awaitTimeout id, .taskTimeout]
  | .awaitCanceled id c => [.awaitCanceled id c, .taskCanceled]
  | .retryExhausted r e => .retryExhausted r e :: errIsSet e
  | .timeoutExceeded t => [.timeoutExceeded t, .taskTimeout]
  | .awaitAllWrap id e => .awaitAllWrap id e :: errIsSet e
  | e => [e]

/-- Model of errors.Is: the target is reachable through the %w chain. -/
def errIs (e target : GErr) : Bool := target ∈ errIsSet e

/-- An error is of the canceled category when errors.Is finds
ErrTaskCanceled or context.Canceled in it; this is the category the
specification's error taxonomy calls canceled. -/
def isCanceledCategory (e : GErr) : Bool :=
  errIs e .taskCanceled || errIs e .ctxCanceled

/-- Task identifiers (xid values in Go) are modelled as naturals. -/
abbrev ID := Nat

/-- Values produced by runnables (Go interface value any, none models nil). -/
abbrev Value := Option Nat

/-- The task status enumeration from manager.go. -/
inductive Status where
  | deferred
  | pending
  | running
  | completed
  | failed
  | canceled
  | unknown
deriving DecidableEq, Repr

/-- The Task struct of manager.go: identity and completion data.  Times and
durations are modelled as naturals, with 0 playing the role of the zero
time.Time (IsZero). -/
structure Task where
  id : ID
  result : Value
  error : Option GErr
  time : Nat
  duration : Nat
deriving DecidableEq, Repr

/-- The zero value of the Task struct. -/
def zeroTask : Task := { id := 0, result := none, error := none, time := 0, duration := 0 }

/-- Lookup in an association list modelling a sync.Map. -/
def alookup {α : Type} (k : ID) : List (ID × α) → Option α
  | [] => none
  | (k2, v) :: rest => if k2 = k then some v else alookup k rest

/-- Deletion from an association list (sync.Map Delete). -/
def aerase {α : Type} (k : ID) (l : List (ID × α)) : List (ID × α) :=
  l.filter (fun kv => kv.1 ≠ k)

/-- Store into an association list (sync.Map Store): replaces any existing
binding of the key. -/
def astore {α : Type} (k : ID) (v : α) (l : List (ID × α)) : List (ID × α) :=
  (k, v) :: aerase k l

/-- Outcome of one invocation of a Runnable inside the worker: whether it
panicked (and with what value), the error and value it returned, and the
state of the task scope at the check after Run returns (whether
taskCtx.Err() was non-nil, and which context error it was). -/
structure RunOutcome where
  panics : Option Nat
  err : Option GErr
  result : Value
  ctxFiredAfter : Bool
  ctxErrV : GErr
deriving DecidableEq, Repr

/-- Observable effect of the worker goroutine spawned by Async: the Task
written to the result slot, the terminal status stored, and whether the
completion latch was resolved and the semaphore slot released (both happen
on every path via close and the deferred receive). -/
structure WorkerResult where
  task : Task
  status : Status
  latchResolved : Bool
  slotReleased : Bool
deriving DecidableEq, Repr

/-- Model of the worker goroutine body of Manager.Async (the recover guard
and the terminal-status computation).  On a panic the recover branch stores
a Failed task whose error wraps ErrTaskPanicked and whose result field is
left at its zero value; otherwise the status is Failed when Run returned an
error, Canceled when the task scope had fired (with the error replaced by a
wrap of ErrTaskCanceled), and Completed otherwise. -/
def runWorker (taskID : ID) (start dur : Nat) (oc : RunOutcome) : WorkerResult :=
  match oc.panics with
  | some v =>
      { task := { id := taskID, result := none, error := some (.panickedWrap v),
                  time := start, duration := dur },
        status := .failed, latchResolved := true, slotReleased := true }
  | none =>
      let status : Status :=
        if oc.err.isSome then .failed
        else if oc.ctxFiredAfter then .canceled else .completed
      let err : Option GErr :=
        if oc.err.isSome then oc.err
        else if oc.ctxFiredAfter then some (.canceledWrapCtx oc.ctxErrV) else none
      { task := { id := taskID, result := oc.result, error := err,
                  time := start, duration := dur },
        status := status, latchResolved := true, slotReleased := true }

/-- The asyncTask struct: write-once result slot plus completion latch
(done = true models the closed channel). -/
structure AsyncEntry where
  result : Task
  done : Bool
deriving DecidableEq, Repr

/-- The deferredTask struct: the captured runnable (by code), the captured
submission scope (by its fired flag), and the promoted ID once the one-shot
promotion guard has fired (none models the zero xid, sync.Once not yet
run). -/
structure DeferredEntry where
  runnable : Nat
  ctxFired : Bool
  promoted : Option ID
deriving DecidableEq, Repr

/-- A value of the tasks table: either an asyncTask or a deferredTask. -/
inductive Entry where
  | asyncE (a : AsyncEntry)
  | deferE (d : DeferredEntry)
deriving DecidableEq, Repr

/-- State of a Manager: the four sync.Map tables, the shutting-down flag,
plus model bookkeeping: the fired cancellation triggers, a counter for
fresh IDs, and a log of runnable codes executed by workers. -/
structure Manager where
  tasks : List (ID × Entry)
  tasksResult : List (ID × Task)
  tasksCancel : List (ID × ID)
  taskStatuses : List (ID × Status)
  firedTriggers : List ID
  shuttingDown : Bool
  nextId : ID
  execLog : List Nat
deriving DecidableEq, Repr

/-- Model of Manager.Cancel: if the ID is absent from the status table,
return false; otherwise fire the recorded cancel trigger if present, store
StatusCanceled in the status table, and delete the ID from the cancel,
result and task tables. -/
def Manager.Cancel (tm : Manager) (taskID : ID) : Bool × Manager :=
  match alookup taskID tm.taskStatuses with
  | none => (false, tm)
  | some _ =>
    let tm2 :=
      match alookup taskID tm.tasksCancel with
      | some trig => { tm with firedTriggers := trig :: tm.firedTriggers }
      | none => tm
    (true, { tm2 with
      taskStatuses := astore taskID .canceled tm2.taskStatuses,
      tasksCancel := aerase taskID tm2.tasksCancel,
      tasksResult := aerase taskID tm2.tasksResult,
      tasks := aerase taskID tm2.tasks })

/-- Model of Manager.Async.  The env function gives each runnable code its
RunOutcome; ctxFired says whether the caller scope fires before a worker
slot is acquired.  The worker goroutine is modelled atomically: its whole
effect (runWorker) is applied before Async returns, so every stored async
entry is already resolved; the transient StatusRunning store is subsumed by
the terminal store. -/
def Manager.Async (env : Nat → RunOutcome) (start dur : Nat) (ctxFired : Bool)
    (tm : Manager) (runnable : Nat) : ID × Manager :=
  let taskID := tm.nextId
  let t0 : AsyncEntry := { result := zeroTask, done := false }
  let tm1 := { tm with nextId := taskID + 1,
                       tasks := astore taskID (.asyncE t0) tm.tasks,
                       taskStatuses := astore taskID .pending tm.taskStatuses }
  if tm1.shuttingDown then
    (taskID, { tm1 with
      taskStatuses := astore taskID .canceled tm1.taskStatuses,
      tasks := astore taskID (.asyncE { t0 with done := true }) tm1.tasks })
  else if ctxFired then
    let tc : Task := { zeroTask with id := taskID, error := some (.wrapOnly .taskCanceled) }
    (taskID, { tm1 with
      tasks := astore taskID (.asyncE { result := tc, done := true }) tm1.tasks,
      taskStatuses := astore taskID .canceled tm1.taskStatuses })
  else
    let tm2 := { tm1 with tasksCancel := astore taskID taskID tm1.tasksCancel }
    let wr := runWorker taskID start dur (env runnable)
    (taskID, { tm2 with
      execLog := runnable :: tm2.execLog,
      taskStatuses := astore taskID wr.status tm2.taskStatuses,
      tasksResult := astore taskID wr.task tm2.tasksResult,
      tasks := astore taskID (.asyncE { result := wr.task, done := true }) tm2.tasks })

/-- Model of Manager.Defer: when shutting down, store an already-resolved
async entry carrying ErrTaskCanceled and status Canceled; otherwise store a
deferred entry (runnable and submission scope captured, not promoted) with
status Deferred. -/
def Manager.Defer (ctxFired : Bool) (tm : Manager) (runnable : Nat) : ID × Manager :=
  let taskID := tm.nextId
  if tm.shuttingDown then
    let tc : Task := { zeroTask with id := taskID, error := some .taskCanceled }
    (taskID, { tm with
      nextId := taskID + 1,
      tasks := astore taskID (.asyncE { result := tc, done := true }) tm.tasks,
      taskStatuses := astore taskID .canceled tm.taskStatuses })
  else
    (taskID, { tm with
      nextId := taskID + 1,
      tasks := astore taskID
        (.deferE { runnable := runnable, ctxFired := ctxFired, promoted := none }) tm.tasks,
      taskStatuses := astore taskID .deferred tm.taskStatuses })

/-- Result of an Await call: the returned Task and error pair, or the two
outcomes a sequential model cannot produce a value for: blocking forever
(neither the latch nor the caller scope is ready) and fuel exhaustion of
the model recursion. -/
inductive AwaitOut where
  | res (t : Task) (e : Option GErr)
  | blocked
  | fuelOut
deriving DecidableEq, Repr

/-- The caller scope of an Await call: whether ctx.Done() is ready, whether
its error is DeadlineExceeded, and which arm the select picks when both the
latch and the scope are ready (Go select chooses randomly; selDone = true
picks the latch arm). -/
structure AwaitCtx where
  fired : Bool
  deadline : Bool
  selDone : Bool
deriving DecidableEq, Repr

/-- Model of Manager.Await.  Unknown IDs return the zero Task with
ErrTaskNotFound.  A deferred entry runs its one-shot promotion if needed
(invoking Async with the captured runnable and captured scope and
recording the promoted ID) and recurses on the promoted ID under the
current caller scope.  An async entry selects between the latch and the
caller scope: the latch arm returns the stored result, wrapping a stored
error as ErrTaskFailed; the scope arm calls Cancel and distinguishes
deadline from cancellation. -/
def Manager.Await (env : Nat → RunOutcome) (start dur : Nat) :
    Nat → AwaitCtx → Manager → ID → AwaitOut × Manager
  | 0, _, tm, _ => (.fuelOut, tm)
  | fuel + 1, actx, tm, taskID =>
    match alookup taskID tm.tasks with
    | none => (.res zeroTask (some .taskNotFound), tm)
    | some (.deferE d) =>
      match d.promoted with
      | none =>
        let pr := Manager.Async env start dur d.ctxFired tm d.runnable
        let tm2 := { pr.2 with
          tasks := astore taskID (.deferE { d with promoted := some pr.1 }) pr.2.tasks }
        Manager.Await env start dur fuel actx tm2 pr.1
      | some pid => Manager.Await env start dur fuel actx tm pid
    | some (.asyncE a) =>
      if a.done && (!actx.fired || actx.selDone) then
        match a.result.error with
        | some e => (.res a.result (some (.awaitFailed taskID e)), tm)
        | none => (.res a.result none, tm)
      else if actx.fired then
        let c := tm.Cancel taskID
        if actx.deadline then (.res zeroTask (some (.awaitTimeout taskID)), c.2)
        else (.res zeroTask (some (.awaitCanceled taskID .ctxCanceled)), c.2)
      else (.blocked, tm)

/-- State after the one-shot promotion of a deferred entry, as built
inside the deferred branch of Manager.Await: Async has been invoked with
the captured runnable and captured scope, and the promoted ID has been
recorded in the entry. -/
def promoteState (env : Nat → RunOutcome) (start dur : Nat) (tm : Manager)
    (did : ID) (d : DeferredEntry) : Manager :=
  { (Manager.Async env start dur d.ctxFired tm d.runnable).2 with
    tasks := astore did
      (.deferE { d with
        promoted := some (Manager.Async env start dur d.ctxFired tm d.runnable).1 })
      (Manager.Async env start dur d.ctxFired tm d.runnable).2.tasks }

/-- TTL guard inside Manager.Prune: an entry is kept for TTL reasons when
ttl is positive, a result is recorded for it in the given results table,
its start time is not the zero time, and now minus that start time is
below ttl. -/
def pruneTTLKeeps (now ttl : Nat) (results : List (ID × Task)) (id : ID) : Bool :=
  decide (0 < ttl) &&
    (match alookup id results with
     | some t => decide (t.time ≠ 0) && decide ((now : Int) - (t.time : Int) < (ttl : Int))
     | none => false)

/-- One iteration of the Manager.Prune range callback: skip Pending,
Running and Deferred entries; skip entries the TTL guard keeps (consulting
the current results table); delete every other entry from all four tables
and count it. -/
def pruneStep (now ttl : Nat) (acc : Nat × Manager) (kv : ID × Status) : Nat × Manager :=
  if kv.2 = .pending ∨ kv.2 = .running ∨ kv.2 = .deferred then acc
  else if pruneTTLKeeps now ttl acc.2.tasksResult kv.1 then acc
  else (acc.1 + 1, { acc.2 with
    tasks := aerase kv.1 acc.2.tasks,
    tasksCancel := aerase kv.1 acc.2.tasksCancel,
    tasksResult := aerase kv.1 acc.2.tasksResult,
    taskStatuses := aerase kv.1 acc.2.taskStatuses })

/-- Model of Manager.Prune: walk the status table applying the range
callback, starting from a zero count. -/
def Manager.Prune (now ttl : Nat) (tm : Manager) : Nat × Manager :=
  tm.taskStatuses.foldl (pruneStep now ttl) (0, tm)

/-- The prune decision for one status entry, evaluated against a fixed
results table: the entry is removed iff its status is not one of the
active three and the TTL guard does not keep it. -/
def prunedEntry (now ttl : Nat) (results : List (ID × Task)) (kv : ID × Status) : Bool :=
  !(kv.2 = .pending || kv.2 = .running || kv.2 = .deferred) &&
    !(pruneTTLKeeps now ttl results kv.1)

instance : DecidableEq (Except GErr Value) := fun a b =>
  match a, b with
  | .ok x, .ok y =>
      if h : x = y then .isTrue (by rw [h]) else .isFalse (by simp [h])
  | .ok _, .error _ => .isFalse (by simp)
  | .error _, .ok _ => .isFalse (by simp)
  | .error x, .error y =>
      if h : x = y then .isTrue (by rw [h]) else .isFalse (by simp [h])

/-- Trace of one call to the Runnable produced by WithRetry: the returned
result, how many times the wrapped runnable was invoked, and the sequence
of backoff waits performed. -/
structure RTrace where
  result : Except GErr Value
  invocations : Nat
  waits : List Nat
deriving DecidableEq, Repr

/-- Loop of WithRetry from attempt index i with the given number of loop
iterations remaining after this one.  run gives each attempt its outcome;
fired says whether ctx.Done() is ready during the backoff select after
attempt i; ctxE is the value of ctx.Err() there.  On the last iteration a
failure skips the backoff and falls through to the retries-exhausted
wrapping of the last error. -/
def retryAux (run : Nat → Except GErr Value) (fired : Nat → Bool) (ctxE : GErr)
    (backoff retries i : Nat) : Nat → RTrace
  | 0 =>
    match run i with
    | .ok v => { result := .ok v, invocations := 1, waits := [] }
    | .error e =>
        { result := .error (.retryExhausted retries e), invocations := 1, waits := [] }
  | remaining + 1 =>
    match run i with
    | .ok v => { result := .ok v, invocations := 1, waits := [] }
    | .error _ =>
      if fired i then { result := .error ctxE, invocations := 1, waits := [] }
      else
        let rest := retryAux run fired ctxE backoff retries (i + 1) remaining
        { result := rest.result, invocations := rest.invocations + 1,
          waits := backoff * (i + 1) :: rest.waits }

/-- Model of the Runnable produced by WithRetry, invoked once: the loop
runs attempt indices 0 through retries. -/
def WithRetry (run : Nat → Except GErr Value) (fired : Nat → Bool) (ctxE : GErr)
    (retries backoff : Nat) : RTrace :=
  retryAux run fired ctxE backoff retries 0 retries

/-- Which arm of the select inside WithTimeout is ready first: the
runnable result channel, the child-scope deadline, or a cancellation of
the parent scope propagated into the child scope. -/
inductive TimeoutRace where
  | runnableFirst
  | deadlineFirst
  | parentFirst
deriving DecidableEq, Repr

/-- Result of the Runnable produced by WithTimeout: value, error, and
whether the child scope created for the runnable was released (the
deferred cancel runs on every return path). -/
structure TimeoutResult where
  value : Value
  error : Option GErr
  scopeReleased : Bool
deriving DecidableEq, Repr

/-- Model of the Runnable produced by WithTimeout, invoked once with the
wrapped runnable returning the given value and error when it finishes.
If the result arrives first it is returned as is; if the deadline fires
first the wrapper returns an error wrapping ErrTaskTimeout; if the parent
scope fires first the wrapper returns the child-scope error
(context.Canceled).  scopeReleased records the deferred cancel. -/
def WithTimeout (runValue : Value) (runErr : Option GErr) (race : TimeoutRace)
    (timeout : Nat) : TimeoutResult :=
  match race with
  | .runnableFirst => { value := runValue, error := runErr, scopeReleased := true }
  | .deadlineFirst =>
      { value := none, error := some (.timeoutExceeded timeout), scopeReleased := true }
  | .parentFirst => { value := none, error := some .ctxCanceled, scopeReleased := true }

/-- One waiter goroutine of AwaitAll completing: waiter i awaits ids[i]
and on success writes the Task into slot i of the output slice. -/
def awaitAllStep (await1 : ID → Task × Option GErr) (ids : List ID)
    (acc : List Task) (i : Nat) : List Task :=
  let o := await1 (ids.getD i 0)
  if o.2.isNone then acc.set i o.1 else acc

/-- Writes performed by the waiter goroutines of AwaitAll, applied in
completion order to an initially zeroed slice of the input length. -/
def awaitAllFill (await1 : ID → Task × Option GErr) (ids : List ID) (order : List Nat) :
    List Task :=
  order.foldl (awaitAllStep await1 ids) (List.replicate ids.length zeroTask)

/-- Errors sent to the errs channel by the waiter goroutines of AwaitAll,
in completion order; each wraps the awaited ID around the Await error. -/
def awaitAllErrs (await1 : ID → Task × Option GErr) (ids : List ID) (order : List Nat) :
    List GErr :=
  order.filterMap (fun i =>
    ((await1 (ids.getD i 0)).2).map (fun e => .awaitAllWrap (ids.getD i 0) e))

/-- Model of Manager.AwaitAll for completed waiters: await1 gives the
outcome of awaiting one ID (identical across waiters, by idempotence of
Await on a resolved latch), and order is the completion order of the
waiter goroutines, a permutation of the input positions.  An empty input
returns the nil slice and nil error; otherwise, once all waiters are done,
the first error in completion order is returned if any waiter failed, and
the filled output slice otherwise. -/
def AwaitAll (await1 : ID → Task × Option GErr) (ids : List ID) (order : List Nat) :
    Option (List Task) × Option GErr :=
  if ids.isEmpty then (none, none)
  else
    match awaitAllErrs await1 ids order with
    | [] => (some (awaitAllFill await1 ids order), none)
    | e :: _ => (none, some e)

/-- Configuration fields of a Manager touched by NewManager and the worker
limit option: the workerLimit field and the capacity of the worker
semaphore channel. -/
structure MConfig where
  workerLimit : Int
  semCapacity : Int
deriving DecidableEq, Repr

/-- The Option type of context.go: a transformer of the manager under
construction. -/
abbrev MOption := MConfig → MConfig

/-- Model of WithWorkerLimit: only a positive limit replaces the worker
limit and remakes the semaphore channel with the new capacity. -/
def WithWorkerLimit (limit : Int) : MOption :=
  fun m => if 0 < limit then { workerLimit := limit, semCapacity := limit } else m

/-- Model of NewManager restricted to the configuration fields: the
defaults are runtime.GOMAXPROCS(0) * 24 for both the limit and the
semaphore capacity, then the options are applied in order. -/
def NewManager (numCPU : Nat) (opts : List MOption) : MConfig :=
  opts.foldl (fun m o => o m)
    { workerLimit := (numCPU : Int) * 24, semCapacity := (numCPU : Int) * 24 }

/-- Environment in which every runnable completes normally with value 1. -/
def env0 : Nat → RunOutcome := fun _ =>
  { panics := none, err := none, result := some 1, ctxFiredAfter := false,
    ctxErrV := .ctxCanceled }

/-- A fresh manager whose shutting-down flag is set (mid-Shutdown). -/
def shuttingDownManager : Manager :=
  { tasks := [], tasksResult := [], tasksCancel := [], taskStatuses := [],
    firedTriggers := [], shuttingDown := true, nextId := 1, execLog := [] }

/-- A manager holding one running task with a recorded cancel trigger. -/
def sampleManager : Manager :=
  { tasks := [(1, .asyncE { result := zeroTask, done := false })],
    tasksResult := [], tasksCancel := [(1, 1)],
    taskStatuses := [(1, .running)],
    firedTriggers := [], shuttingDown := false, nextId := 2, execLog := [] }

/-- A caller scope that has not fired. -/
def liveCtx : AwaitCtx := { fired := false, deadline := false, selDone := false }

/-- Outcome of a run that fails with a user error after the task scope
has fired. -/
def ocErrFired : RunOutcome :=
  { panics := none, err := some (.user 7), result := none, ctxFiredAfter := true,
    ctxErrV := .ctxCanceled }

/-- Outcome of a run that completes normally with value 1. -/
def ocOk : RunOutcome :=
  { panics := none, err := none, result := some 1, ctxFiredAfter := false,
    ctxErrV := .ctxCanceled }

/-- Outcome of a run that panics with value 3. -/
def ocPanic : RunOutcome :=
  { panics := some 3, err := none, result := none, ctxFiredAfter := false,
    ctxErrV := .ctxCanceled }

/-- A runnable (as seen by WithRetry) that fails every attempt with user
error 7. -/
def alwaysFail : Nat → Except GErr Value := fun _ => .error (.user 7)

/-- An ambient scope that is ready at every backoff select. -/
def alwaysFired : Nat → Bool := fun _ => true

/-- An ambient scope that never fires. -/
def neverFired : Nat → Bool := fun _ => false

/-- A manager holding one unpromoted deferred entry for runnable 0. -/
def deferManager : Manager :=
  { tasks := [(7, .deferE { runnable := 0, ctxFired := false, promoted := none })],
    tasksResult := [], tasksCancel := [], taskStatuses := [(7, .deferred)],
    firedTriggers := [], shuttingDown := false, nextId := 8, execLog := [] }

/-- An Await outcome function where every ID resolves successfully to a
record carrying that ID. -/
def w8await : ID → Task × Option GErr := fun id => ({ zeroTask with id := id }, none)

/-- A manager as left behind by Cancel: a Canceled status entry whose
result slot was deleted, so no start time is recorded for it. -/
def cancelResidue : Manager :=
  { tasks := [], tasksResult := [], tasksCancel := [], taskStatuses := [(1, .canceled)],
    firedTriggers := [], shuttingDown := false, nextId := 2, execLog := [] }

/-- A manager holding one completed task with a resolved latch. -/
def doneManager : Manager :=
  { tasks := [(2, .asyncE { result := { zeroTask with id := 2, result := some 9 }, done := true })],
    tasksResult := [(2, { zeroTask with id := 2, result := some 9 })],
    tasksCancel := [], taskStatuses := [(2, .completed)],
    firedTriggers := [], shuttingDown := false, nextId := 3, execLog := [] }

/- Theorems: association-list laws used throughout, then one theorem per
specification claim. -/

theorem alookup_aerase_self {α : Type} (k : ID) (l : List (ID × α)) :
    alookup k (aerase k l) = none := by
  induction l with
  | nil => rfl
  | cons kv rest ih =>
    by_cases h : kv.1 = k
    · simpa [aerase, h] using ih
    · simpa [aerase, alookup, h] using ih

theorem alookup_aerase_ne {α : Type} {k j : ID} (h : k ≠ j) (l : List (ID × α)) :
    alookup k (aerase j l) = alookup k l := by
  induction l with
  | nil => rfl
  | cons kv rest ih =>
    by_cases h2 : kv.1 = j
    · have h3 : ¬ kv.1 = k := fun hk => h (hk ▸ h2)
      simp [aerase, List.filter_cons, h2, alookup, h3, Ne.symm h] at ih ⊢
      exact ih
    · by_cases h3 : kv.1 = k
      · simp [aerase, List.filter_cons, h2, h3, alookup, h]
      · simp [aerase, List.filter_cons, h2, h3, alookup] at ih ⊢
        exact ih

theorem alookup_astore_self {α : Type} (k : ID) (v : α) (l : List (ID × α)) :
    alookup k (astore k v l) = some v := by
  simp [astore, alookup]

theorem alookup_astore_ne {α : Type} {k j : ID} (h : k ≠ j) (v : α) (l : List (ID × α)) :
    alookup k (astore j v l) = alookup k l := by
  simp [astore, alookup, Ne.symm h, alookup_aerase_ne h]

/-- C10: constructing a manager with the worker-limit option ignores a
non-positive limit, keeping the default of 24 times the logical CPU count
for both the limit and the semaphore capacity, and reports no error; a
positive limit replaces both. -/
theorem c10_worker_limit_option (limit : Int) (numCPU : Nat) :
    NewManager numCPU [WithWorkerLimit limit] =
      (if 0 < limit then { workerLimit := limit, semCapacity := limit }
       else { workerLimit := (numCPU : Int) * 24, semCapacity := (numCPU : Int) * 24 }) := by
  by_cases h : 0 < limit <;> simp [NewManager, WithWorkerLimit, h]

/-- C7: WithTimeout returns the wrapped runnable's own value and error when
the runnable finishes first, returns an error wrapping ErrTaskTimeout when
the deadline fires first, and releases the child scope on every exit
path. -/
theorem c7_with_timeout (runValue : Value) (runErr : Option GErr)
    (race : TimeoutRace) (timeout : Nat) :
    (race = .runnableFirst →
      WithTimeout runValue runErr race timeout =
        { value := runValue, error := runErr, scopeReleased := true }) ∧
    (race = .deadlineFirst →
      (WithTimeout runValue runErr race timeout).error = some (.timeoutExceeded timeout) ∧
      errIs (.timeoutExceeded timeout) .taskTimeout = true) ∧
    (WithTimeout runValue runErr race timeout).scopeReleased = true := by
  refine ⟨fun h => ?_, fun h => ?_, ?_⟩
  · subst h; rfl
  · subst h; exact ⟨rfl, by simp [errIs, errIsSet]⟩
  · cases race <;> rfl

theorem c7_with_timeout_witness :
    WithTimeout (some 5) none .runnableFirst 7 =
      { value := some 5, error := none, scopeReleased := true } ∧
    (WithTimeout (some 5) none .deadlineFirst 7).error = some (.timeoutExceeded 7) :=
  ⟨(c7_with_timeout (some 5) none .runnableFirst 7).1 rfl,
   ((c7_with_timeout (some 5) none .deadlineFirst 7).2.1 rfl).1⟩

/-- C2 (divergence witness): Async invoked on a shutting-down manager marks
the task Canceled and returns its ID, but resolves the latch without
recording any error, so the subsequent Await returns the zero TaskRecord
with no error at all instead of an error of category canceled. -/
theorem c2_async_under_shutdown_bug :
    (Manager.Async env0 10 1 false shuttingDownManager 0).1 = 1 ∧
    alookup 1 (Manager.Async env0 10 1 false shuttingDownManager 0).2.taskStatuses =
      some .canceled ∧
    (Manager.Await env0 10 1 1 liveCtx
        (Manager.Async env0 10 1 false shuttingDownManager 0).2 1).1 =
      .res zeroTask none := by
  decide

/-- C1 counterexample: after a first Cancel of a present ID, the status
table still holds the ID (re-stored as Canceled rather than removed), and
a second Cancel of the same ID returns true, not false. -/
theorem c1_cancel_counterexample :
    (sampleManager.Cancel 1).1 = true ∧
    ((sampleManager.Cancel 1).2.Cancel 1).1 = true ∧
    alookup 1 (sampleManager.Cancel 1).2.taskStatuses = some .canceled := by
  decide

/-- C1 (amended): for an ID present in the status table, Cancel returns
true, fires the recorded trigger if one exists, removes the entry from the
task, cancel-trigger and result tables, but re-stores the status table
entry as Canceled; consequently a second Cancel returns true again, while
a subsequent Await returns a not-found error.  For an ID absent from the
status table, Cancel returns false and leaves the manager unchanged. -/
theorem c1_cancel_amended (tm : Manager) (taskID : ID) :
    (∀ st, alookup taskID tm.taskStatuses = some st →
      (tm.Cancel taskID).1 = true ∧
      (∀ trig, alookup taskID tm.tasksCancel = some trig →
        trig ∈ (tm.Cancel taskID).2.firedTriggers) ∧
      alookup taskID (tm.Cancel taskID).2.tasks = none ∧
      alookup taskID (tm.Cancel taskID).2.tasksCancel = none ∧
      alookup taskID (tm.Cancel taskID).2.tasksResult = none ∧
      alookup taskID (tm.Cancel taskID).2.taskStatuses = some .canceled ∧
      ((tm.Cancel taskID).2.Cancel taskID).1 = true ∧
      (∀ env start dur fuel actx,
        Manager.Await env start dur (fuel + 1) actx (tm.Cancel taskID).2 taskID =
          (.res zeroTask (some .taskNotFound), (tm.Cancel taskID).2))) ∧
    (alookup taskID tm.taskStatuses = none → tm.Cancel taskID = (false, tm)) := by
  constructor
  · intro st hst
    cases htr : alookup taskID tm.tasksCancel with
    | none =>
        refine ⟨?_, ?_, ?_, ?_, ?_, ?_, ?_, ?_⟩ <;>
          simp [Manager.Cancel, hst, htr, alookup_astore_self, alookup_aerase_self,
            Manager.Await]
    | some trig =>
        refine ⟨?_, ?_, ?_, ?_, ?_, ?_, ?_, ?_⟩ <;>
          simp [Manager.Cancel, hst, htr, alookup_astore_self, alookup_aerase_self,
            Manager.Await]
  · intro hst
    simp [Manager.Cancel, hst]

theorem c1_cancel_amended_witness :
    (sampleManager.Cancel 1).1 = true ∧
    alookup 1 (sampleManager.Cancel 1).2.tasks = none ∧
    sampleManager.Cancel 0 = (false, sampleManager) :=
  ⟨((c1_cancel_amended sampleManager 1).1 .running rfl).1,
   ((c1_cancel_amended sampleManager 1).1 .running rfl).2.2.1,
   (c1_cancel_amended sampleManager 0).2 rfl⟩

/-- C5: once the completion latch of a task is resolved, Await under a live
caller scope is a pure read: it returns the stored TaskRecord (with a
stored error wrapped as ErrTaskFailed) and leaves the manager unchanged,
so a second Await of the same ID returns the identical record and
identical categorized error. -/
theorem c5_await_idempotent (env : Nat → RunOutcome) (start dur fuel : Nat)
    (actx : AwaitCtx) (tm : Manager) (taskID : ID) (a : AsyncEntry)
    (h : alookup taskID tm.tasks = some (.asyncE a))
    (hdone : a.done = true) (hlive : actx.fired = false) :
    Manager.Await env start dur (fuel + 1) actx tm taskID =
      ((match a.result.error with
        | some e => .res a.result (some (.awaitFailed taskID e))
        | none => .res a.result none), tm) ∧
    Manager.Await env start dur (fuel + 1) actx
        (Manager.Await env start dur (fuel + 1) actx tm taskID).2 taskID =
      Manager.Await env start dur (fuel + 1) actx tm taskID := by
  have h1 : Manager.Await env start dur (fuel + 1) actx tm taskID =
      ((match a.result.error with
        | some e => .res a.result (some (.awaitFailed taskID e))
        | none => .res a.result none), tm) := by
    simp only [Manager.Await, h, hdone, hlive]
    cases a.result.error <;> simp
  refine ⟨h1, ?_⟩
  rw [h1]
  exact h1

theorem c5_await_idempotent_witness :
    Manager.Await env0 10 1 3 liveCtx
        (Manager.Await env0 10 1 3 liveCtx doneManager 2).2 2 =
      Manager.Await env0 10 1 3 liveCtx doneManager 2 :=
  (c5_await_idempotent env0 10 1 2 liveCtx doneManager 2
    { result := { zeroTask with id := 2, result := some 9 }, done := true }
    (by decide) rfl rfl).2

/-- C3 counterexample: when the Runnable returns an error while the child
scope has fired, the worker records status Failed, not Canceled as the
claim reads. -/
theorem c3_worker_counterexample :
    ocErrFired.ctxFiredAfter = true ∧
    (runWorker 1 10 2 ocErrFired).status = .failed ∧
    (runWorker 1 10 2 ocErrFired).status ≠ .canceled := by
  decide

/-- C3 (amended): for a non-panicking run, the terminal status is
Completed iff the Runnable returned no error and the child scope had not
fired, Canceled iff the scope fired and the Runnable returned no error,
and Failed iff the Runnable returned an error; a panic is caught and makes
the task Failed with an error wrapping ErrTaskPanicked; in all cases the
worker fills the result slot, stores the terminal status, resolves the
completion latch and releases the worker slot. -/
theorem c3_worker_amended (taskID : ID) (start dur : Nat) (oc : RunOutcome) :
    (oc.panics = none →
      ((runWorker taskID start dur oc).status = .completed ↔
        (oc.err = none ∧ oc.ctxFiredAfter = false)) ∧
      ((runWorker taskID start dur oc).status = .canceled ↔
        (oc.err = none ∧ oc.ctxFiredAfter = true)) ∧
      ((runWorker taskID start dur oc).status = .failed ↔ oc.err.isSome)) ∧
    (∀ v, oc.panics = some v →
      (runWorker taskID start dur oc).status = .failed ∧
      (runWorker taskID start dur oc).task.error = some (.panickedWrap v) ∧
      errIs (.panickedWrap v) .taskPanicked = true) ∧
    (runWorker taskID start dur oc).latchResolved = true ∧
    (runWorker taskID start dur oc).slotReleased = true ∧
    (∀ env (tm : Manager) runnable, tm.shuttingDown = false → env runnable = oc →
      alookup (Manager.Async env start dur false tm runnable).1
          (Manager.Async env start dur false tm runnable).2.tasksResult =
        some (runWorker tm.nextId start dur oc).task ∧
      alookup (Manager.Async env start dur false tm runnable).1
          (Manager.Async env start dur false tm runnable).2.taskStatuses =
        some (runWorker tm.nextId start dur oc).status ∧
      alookup (Manager.Async env start dur false tm runnable).1
          (Manager.Async env start dur false tm runnable).2.tasks =
        some (.asyncE { result := (runWorker tm.nextId start dur oc).task, done := true })) := by
  obtain ⟨p, e, r, cf, cv⟩ := oc
  refine ⟨?_, ?_, ?_, ?_, ?_⟩
  · intro hp
    subst hp
    cases e <;> cases cf <;> simp [runWorker]
  · intro v hp
    subst hp
    exact ⟨rfl, rfl, by simp [errIs, errIsSet]⟩
  · cases p <;> rfl
  · cases p <;> rfl
  · intro env tm runnable hsd henv
    simp [Manager.Async, hsd, henv, alookup_astore_self]

theorem waits_cons (backoff i j : Nat) :
    backoff * (i + 1) :: (List.range j).map (fun k => backoff * (i + 1 + k + 1)) =
      (List.range (j + 1)).map (fun k => backoff * (i + k + 1)) := by
  have hfun : (fun k => backoff * (i + 1 + k + 1)) =
      ((fun k => backoff * (i + k + 1)) ∘ Nat.succ) := by
    funext k
    simp only [Function.comp]
    congr 1
    omega
  rw [List.range_succ_eq_map, List.map_cons, List.map_map, hfun]

theorem retryAux_invocations_le (run : Nat → Except GErr Value) (fired : Nat → Bool)
    (ctxE : GErr) (backoff retries : Nat) :
    ∀ remaining i,
      (retryAux run fired ctxE backoff retries i remaining).invocations ≤ remaining + 1 := by
  intro remaining
  induction remaining with
  | zero =>
    intro i
    cases h : run i <;> simp [retryAux, h]
  | succ rem ih =>
    intro i
    cases h : run i with
    | ok v => simp [retryAux, h]
    | error e =>
      by_cases hf : fired i
      · simp [retryAux, h, hf]
      · have := ih (i + 1)
        simp [retryAux, h, hf]
        omega

theorem retryAux_first_ok (run : Nat → Except GErr Value) (fired : Nat → Bool)
    (ctxE : GErr) (backoff retries : Nat) :
    ∀ j i remaining v, j ≤ remaining →
      (∀ k, k < j → (∃ e, run (i + k) = .error e) ∧ fired (i + k) = false) →
      run (i + j) = .ok v →
      retryAux run fired ctxE backoff retries i remaining =
        { result := .ok v, invocations := j + 1,
          waits := (List.range j).map (fun k => backoff * (i + k + 1)) } := by
  intro j
  induction j with
  | zero =>
    intro i remaining v _ _ hok
    have h : run i = .ok v := hok
    cases remaining <;> simp [retryAux, h]
  | succ j ih =>
    intro i remaining v hle hprev hok
    obtain ⟨⟨e0, he0⟩, hf0⟩ := hprev 0 (by omega)
    cases remaining with
    | zero => omega
    | succ rem =>
      have hrec := ih (i + 1) rem v (by omega)
        (fun k hk => by
          have h2 := hprev (k + 1) (by omega)
          have he : i + (k + 1) = i + 1 + k := by omega
          rwa [he] at h2)
        (by
          have he : i + (j + 1) = i + 1 + j := by omega
          rwa [he] at hok)
      have he0i : run i = .error e0 := he0
      have hf0i : fired i = false := hf0
      simp only [retryAux, he0i, hf0i, Bool.false_eq_true, if_false, hrec]
      rw [waits_cons]

theorem retryAux_exhausted (run : Nat → Except GErr Value) (fired : Nat → Bool)
    (ctxE : GErr) (backoff retries : Nat) :
    ∀ remaining i e,
      (∀ k, k < remaining → (∃ e2, run (i + k) = .error e2) ∧ fired (i + k) = false) →
      run (i + remaining) = .error e →
      retryAux run fired ctxE backoff retries i remaining =
        { result := .error (.retryExhausted retries e), invocations := remaining + 1,
          waits := (List.range remaining).map (fun k => backoff * (i + k + 1)) } := by
  intro remaining
  induction remaining with
  | zero =>
    intro i e _ hlast
    have h : run i = .error e := hlast
    simp [retryAux, h]
  | succ rem ih =>
    intro i e hprev hlast
    obtain ⟨⟨e0, he0⟩, hf0⟩ := hprev 0 (by omega)
    have hrec := ih (i + 1) e
      (fun k hk => by
        have h2 := hprev (k + 1) (by omega)
        have he : i + (k + 1) = i + 1 + k := by omega
        rwa [he] at h2)
      (by
        have he : i + (rem + 1) = i + 1 + rem := by omega
        rwa [he] at hlast)
    have he0i : run i = .error e0 := he0
    have hf0i : fired i = false := hf0
    simp only [retryAux, he0i, hf0i, Bool.false_eq_true, if_false, hrec]
    rw [waits_cons]

theorem retryAux_ctx_fired (run : Nat → Except GErr Value) (fired : Nat → Bool)
    (ctxE : GErr) (backoff retries : Nat) :
    ∀ j remaining i, j < remaining →
      (∀ k, k ≤ j → ∃ e, run (i + k) = .error e) →
      (∀ k, k < j → fired (i + k) = false) →
      fired (i + j) = true →
      retryAux run fired ctxE backoff retries i remaining =
        { result := .error ctxE, invocations := j + 1,
          waits := (List.range j).map (fun k => backoff * (i + k + 1)) } := by
  intro j
  induction j with
  | zero =>
    intro remaining i hlt hfail _ hf
    obtain ⟨e0, he0⟩ := hfail 0 (by omega)
    have he0i : run i = .error e0 := he0
    have hfi : fired i = true := hf
    cases remaining with
    | zero => omega
    | succ rem => simp [retryAux, he0i, hfi]
  | succ j ih =>
    intro remaining i hlt hfail hnot hf
    obtain ⟨e0, he0⟩ := hfail 0 (by omega)
    have hf0 : fired (i + 0) = false := hnot 0 (by omega)
    cases remaining with
    | zero => omega
    | succ rem =>
      have hrec := ih rem (i + 1) (by omega)
        (fun k hk => by
          have h2 := hfail (k + 1) (by omega)
          have he : i + (k + 1) = i + 1 + k := by omega
          rwa [he] at h2)
        (fun k hk => by
          have h2 := hnot (k + 1) (by omega)
          have he : i + (k + 1) = i + 1 + k := by omega
          rwa [he] at h2)
        (by
          have he : i + (j + 1) = i + 1 + j := by omega
          rwa [he] at hf)
      have he0i : run i = .error e0 := he0
      have hf0i : fired i = false := hf0
      simp only [retryAux, he0i, hf0i, Bool.false_eq_true, if_false, hrec]
      rw [waits_cons]

theorem zero_add_waits (backoff : Nat) :
    (fun k => backoff * (0 + k + 1)) = (fun k => backoff * (k + 1)) := by
  funext k
  congr 1
  omega

theorem prune_fold (now ttl : Nat) (R : List (ID × Task)) :
    ∀ (es : List (ID × Status)) (c : Nat) (t : Manager),
      (es.map Prod.fst).Nodup →
      (∀ id, id ∈ es.map Prod.fst → alookup id t.tasksResult = alookup id R) →
      (es.foldl (pruneStep now ttl) (c, t)).1 =
          c + es.countP (fun kv => prunedEntry now ttl R kv) ∧
      (∀ kv, kv ∈ es →
        alookup kv.1 (es.foldl (pruneStep now ttl) (c, t)).2.taskStatuses =
          (if prunedEntry now ttl R kv then none else alookup kv.1 t.taskStatuses)) ∧
      (∀ j, j ∉ es.map Prod.fst →
        alookup j (es.foldl (pruneStep now ttl) (c, t)).2.taskStatuses =
          alookup j t.taskStatuses) := by
  intro es
  induction es with
  | nil =>
    intro c t _ _
    exact ⟨by simp, by simp, fun j _ => rfl⟩
  | cons kv rest ih =>
    intro c t hnd hres
    have hnd2 : (kv.1 :: rest.map Prod.fst).Nodup := by simpa using hnd
    have hndr : (rest.map Prod.fst).Nodup := hnd2.of_cons
    have hknr : kv.1 ∉ rest.map Prod.fst := (List.nodup_cons.mp hnd2).1
    by_cases hact : kv.2 = .pending ∨ kv.2 = .running ∨ kv.2 = .deferred
    · have hstep : pruneStep now ttl (c, t) kv = (c, t) := by simp [pruneStep, hact]
      have hP : prunedEntry now ttl R kv = false := by
        rcases hact with h | h | h <;> simp [prunedEntry, h]
      obtain ⟨ih1, ih2, ih3⟩ := ih c t hndr (fun id hid => hres id (by simp [hid]))
      refine ⟨?_, ?_, ?_⟩
      · rw [List.foldl_cons, hstep, ih1, List.countP_cons]
        simp [hP]
      · intro kv2 hkv2
        rcases List.mem_cons.mp hkv2 with h | h
        · rw [h, List.foldl_cons, hstep, hP]
          simpa using ih3 kv.1 hknr
        · rw [List.foldl_cons, hstep]
          exact ih2 kv2 h
      · intro j hj
        rw [List.foldl_cons, hstep]
        exact ih3 j (fun h => hj (by simp [h]))
    · have hresk : alookup kv.1 t.tasksResult = alookup kv.1 R := hres kv.1 (by simp)
      have hkeep_eq : pruneTTLKeeps now ttl t.tasksResult kv.1 =
          pruneTTLKeeps now ttl R kv.1 := by
        simp [pruneTTLKeeps, hresk]
      push_neg at hact
      obtain ⟨ha1, ha2, ha3⟩ := hact
      by_cases hkeep : pruneTTLKeeps now ttl R kv.1 = true
      · have hstep : pruneStep now ttl (c, t) kv = (c, t) := by
          simp [pruneStep, ha1, ha2, ha3, hkeep_eq, hkeep]
        have hP : prunedEntry now ttl R kv = false := by
          simp [prunedEntry, hkeep]
        obtain ⟨ih1, ih2, ih3⟩ := ih c t hndr (fun id hid => hres id (by simp [hid]))
        refine ⟨?_, ?_, ?_⟩
        · rw [List.foldl_cons, hstep, ih1, List.countP_cons]
          simp [hP]
        · intro kv2 hkv2
          rcases List.mem_cons.mp hkv2 with h | h
          · rw [h, List.foldl_cons, hstep, hP]
            simpa using ih3 kv.1 hknr
          · rw [List.foldl_cons, hstep]
            exact ih2 kv2 h
        · intro j hj
          rw [List.foldl_cons, hstep]
          exact ih3 j (fun h => hj (by simp [h]))
      · have hkeepf : pruneTTLKeeps now ttl R kv.1 = false := by
          simpa using hkeep
        have hstep : pruneStep now ttl (c, t) kv =
            (c + 1, { t with
              tasks := aerase kv.1 t.tasks,
              tasksCancel := aerase kv.1 t.tasksCancel,
              tasksResult := aerase kv.1 t.tasksResult,
              taskStatuses := aerase kv.1 t.taskStatuses }) := by
          simp [pruneStep, ha1, ha2, ha3, hkeep_eq, hkeepf]
        have hP : prunedEntry now ttl R kv = true := by
          simp [prunedEntry, ha1, ha2, ha3, hkeepf]
        obtain ⟨ih1, ih2, ih3⟩ := ih (c + 1)
          { t with
            tasks := aerase kv.1 t.tasks,
            tasksCancel := aerase kv.1 t.tasksCancel,
            tasksResult := aerase kv.1 t.tasksResult,
            taskStatuses := aerase kv.1 t.taskStatuses }
          hndr
          (fun id hid => by
            have hne : id ≠ kv.1 := fun h => hknr (h ▸ hid)
            have : alookup id (aerase kv.1 t.tasksResult) = alookup id t.tasksResult :=
              alookup_aerase_ne hne t.tasksResult
            rw [show ({ t with
                tasks := aerase kv.1 t.tasks,
                tasksCancel := aerase kv.1 t.tasksCancel,
                tasksResult := aerase kv.1 t.tasksResult,
                taskStatuses := aerase kv.1 t.taskStatuses } : Manager).tasksResult =
              aerase kv.1 t.tasksResult from rfl, this]
            exact hres id (by simp [hid]))
        refine ⟨?_, ?_, ?_⟩
        · rw [List.foldl_cons, hstep, ih1, List.countP_cons]
          simp [hP]
          omega
        · intro kv2 hkv2
          rcases List.mem_cons.mp hkv2 with h | h
          · rw [h, List.foldl_cons, hstep]
            have h5 := ih3 kv.1 hknr
            rw [h5]
            simp [hP, alookup_aerase_self]
          · have hkey : kv2.1 ∈ rest.map Prod.fst := List.mem_map_of_mem _ h
            have hne : kv2.1 ≠ kv.1 := fun hq => hknr (hq ▸ hkey)
            rw [List.foldl_cons, hstep, ih2 kv2 h]
            by_cases hp2 : prunedEntry now ttl R kv2 = true
            · simp [hp2]
            · have hp2f : prunedEntry now ttl R kv2 = false := by simpa using hp2
              simp [hp2f, alookup_aerase_ne hne]
        · intro j hj
          have hj2 : ¬ (j = kv.1 ∨ j ∈ rest.map Prod.fst) := by simpa using hj
          push_neg at hj2
          rw [List.foldl_cons, hstep, ih3 j hj2.2]
          exact alookup_aerase_ne hj2.1 t.taskStatuses

/-- C9 counterexample: with ttl = 100 and a terminal Canceled entry that
has no recorded result (hence no recorded start time at least 100 in the
past), Prune removes the entry anyway and counts it. -/
theorem c9_prune_counterexample :
    alookup 1 cancelResidue.tasksResult = none ∧
    (cancelResidue.Prune 5 100).1 = 1 ∧
    alookup 1 (cancelResidue.Prune 5 100).2.taskStatuses = none := by
  decide

/-- C9 (amended): Prune removes exactly those status-table entries whose
status is not Deferred, Pending or Running and which the TTL guard does
not keep, and the returned count equals the number of entries removed;
the removal condition is equivalent to: the status is terminal, and either
ttl = 0, or no result is recorded for the ID, or the recorded start time
is the zero time, or the start time is at least ttl in the past.  In
particular Deferred, Pending and Running entries are never removed, but a
terminal entry with no recorded result or a zero start time is removed
regardless of its age. -/
theorem c9_prune_amended (now ttl : Nat) (tm : Manager)
    (hnd : (tm.taskStatuses.map Prod.fst).Nodup) :
    (tm.Prune now ttl).1 =
      tm.taskStatuses.countP (fun kv => prunedEntry now ttl tm.tasksResult kv) ∧
    (∀ kv, kv ∈ tm.taskStatuses →
      alookup kv.1 (tm.Prune now ttl).2.taskStatuses =
        (if prunedEntry now ttl tm.tasksResult kv then none
         else alookup kv.1 tm.taskStatuses)) ∧
    (∀ kv : ID × Status, prunedEntry now ttl tm.tasksResult kv =
      (!(kv.2 = .pending || kv.2 = .running || kv.2 = .deferred) &&
       (decide (ttl = 0) ||
        (match alookup kv.1 tm.tasksResult with
         | some tk => decide (tk.time = 0) ||
             decide ((ttl : Int) ≤ (now : Int) - (tk.time : Int))
         | none => true)))) := by
  obtain ⟨h1, h2, _⟩ :=
    prune_fold now ttl tm.tasksResult tm.taskStatuses 0 tm hnd (fun _ _ => rfl)
  refine ⟨by simpa using h1, h2, ?_⟩
  intro kv
  simp only [prunedEntry, pruneTTLKeeps]
  cases halo : alookup kv.1 tm.tasksResult with
  | none => cases ttl <;> simp
  | some tk =>
      cases ttl with
      | zero => simp
      | succ n =>
        by_cases ht : tk.time = 0
        · simp [ht]
        · by_cases hlt : ((now : Int) - (tk.time : Int) < (((n + 1 : Nat)) : Int))
          · have h4 : ¬ ((((n + 1 : Nat)) : Int) ≤ (now : Int) - (tk.time : Int)) := by
              omega
            push_cast at hlt h4
            simp [ht, hlt, h4]
          · have h4 : ((((n + 1 : Nat)) : Int) ≤ (now : Int) - (tk.time : Int)) := by
              omega
            push_cast at hlt h4
            simp [ht, hlt, h4]

theorem c9_prune_amended_witness :
    (doneManager.Prune 50 10).1 =
      doneManager.taskStatuses.countP
        (fun kv => prunedEntry 50 10 doneManager.tasksResult kv) :=
  (c9_prune_amended 50 10 doneManager (by decide)).1

/-- C6 counterexample: when the ambient scope that fires during the first
backoff is a deadline scope, WithRetry returns the scope's
DeadlineExceeded error, which is not of category canceled, contradicting
the claim that a firing scope yields a canceled error. -/
theorem c6_retry_counterexample :
    WithRetry alwaysFail alwaysFired .ctxDeadline 1 5 =
      { result := .error .ctxDeadline, invocations := 1, waits := [] } ∧
    isCanceledCategory .ctxDeadline = false :=
  ⟨rfl, rfl⟩

/-- C6 (amended): WithRetry invokes the runnable at most retries + 1
times; it returns the value of the first successful invocation, having
waited backoff times attempt-index-plus-one after each earlier failure;
if the ambient scope fires during a backoff it returns the scope's own
error immediately (context.Canceled for a canceled scope, DeadlineExceeded
for an expired deadline); and after all retries + 1 invocations fail it
returns an error wrapping the last failure in the retries-exhausted
message. -/
theorem c6_with_retry_amended (run : Nat → Except GErr Value) (fired : Nat → Bool)
    (ctxE : GErr) (retries backoff : Nat) :
    (WithRetry run fired ctxE retries backoff).invocations ≤ retries + 1 ∧
    (∀ j v, j ≤ retries →
      (∀ k, k < j → (∃ e, run k = .error e) ∧ fired k = false) →
      run j = .ok v →
      WithRetry run fired ctxE retries backoff =
        { result := .ok v, invocations := j + 1,
          waits := (List.range j).map (fun k => backoff * (k + 1)) }) ∧
    (∀ e, (∀ k, k < retries → (∃ e2, run k = .error e2) ∧ fired k = false) →
      run retries = .error e →
      WithRetry run fired ctxE retries backoff =
        { result := .error (.retryExhausted retries e), invocations := retries + 1,
          waits := (List.range retries).map (fun k => backoff * (k + 1)) }) ∧
    (∀ j, j < retries →
      (∀ k, k ≤ j → ∃ e, run k = .error e) →
      (∀ k, k < j → fired k = false) → fired j = true →
      WithRetry run fired ctxE retries backoff =
        { result := .error ctxE, invocations := j + 1,
          waits := (List.range j).map (fun k => backoff * (k + 1)) }) := by
  refine ⟨retryAux_invocations_le run fired ctxE backoff retries retries 0, ?_, ?_, ?_⟩
  · intro j v hj hprev hok
    have h := retryAux_first_ok run fired ctxE backoff retries j 0 retries v hj
      (fun k hk => by simpa [Nat.zero_add] using hprev k hk)
      (by simpa [Nat.zero_add] using hok)
    rw [WithRetry, h, zero_add_waits backoff]
  · intro e hprev hlast
    have h := retryAux_exhausted run fired ctxE backoff retries retries 0 e
      (fun k hk => by simpa [Nat.zero_add] using hprev k hk)
      (by simpa [Nat.zero_add] using hlast)
    rw [WithRetry, h, zero_add_waits backoff]
  · intro j hj hfail hnot hf
    have h := retryAux_ctx_fired run fired ctxE backoff retries j retries 0 hj
      (fun k hk => by simpa [Nat.zero_add] using hfail k hk)
      (fun k hk => by simpa [Nat.zero_add] using hnot k hk)
      (by simpa [Nat.zero_add] using hf)
    rw [WithRetry, h, zero_add_waits backoff]

theorem c6_with_retry_amended_witness :
    (WithRetry alwaysFail neverFired .ctxCanceled 2 10).invocations ≤ 3 ∧
    WithRetry alwaysFail neverFired .ctxCanceled 2 10 =
      { result := .error (.retryExhausted 2 (.user 7)), invocations := 3,
        waits := [10, 20] } :=
  ⟨(c6_with_retry_amended alwaysFail neverFired .ctxCanceled 2 10).1,
   by
    have h := (c6_with_retry_amended alwaysFail neverFired .ctxCanceled 2 10).2.2.1
      (.user 7) (fun k _ => ⟨⟨.user 7, rfl⟩, rfl⟩) rfl
    simpa using h⟩

theorem getD_of_lt (ids : List ID) (i : Nat) (h : i < ids.length) :
    ids.getD i 0 = ids[i] := by
  rw [List.getD_eq_getElem?_getD, List.getElem?_eq_getElem h]
  rfl

theorem awaitAllStep_of_none (await1 : ID → Task × Option GErr) (ids : List ID)
    (acc : List Task) (a : Nat) (hna : (await1 (ids.getD a 0)).2.isNone = true) :
    awaitAllStep await1 ids acc a = acc.set a (await1 (ids.getD a 0)).1 := if_pos hna

theorem awaitAllStep_length (await1 : ID → Task × Option GErr) (ids : List ID)
    (acc : List Task) (i : Nat) :
    (awaitAllStep await1 ids acc i).length = acc.length := by
  by_cases h : (await1 (ids.getD i 0)).2.isNone
  · rw [awaitAllStep_of_none await1 ids acc i h, List.length_set]
  · have h2 : awaitAllStep await1 ids acc i = acc := if_neg h
    rw [h2]

theorem fill_aux_length (await1 : ID → Task × Option GErr) (ids : List ID) :
    ∀ (order : List Nat) (init : List Task),
      (order.foldl (awaitAllStep await1 ids) init).length = init.length := by
  intro order
  induction order with
  | nil => intro init; rfl
  | cons a rest ih =>
    intro init
    rw [List.foldl_cons, ih, awaitAllStep_length]

theorem fill_aux_get (await1 : ID → Task × Option GErr) (ids : List ID) :
    ∀ (order : List Nat) (init : List Task) (j : Nat),
      (∀ i ∈ order, (await1 (ids.getD i 0)).2.isNone = true ∧ i < init.length) →
      (order.foldl (awaitAllStep await1 ids) init)[j]? =
        (if j ∈ order then some (await1 (ids.getD j 0)).1 else init[j]?) := by
  intro order
  induction order with
  | nil =>
    intro init j _
    simp
  | cons a rest ih =>
    intro init j hmem
    obtain ⟨hna, hlen⟩ := hmem a (by simp)
    rw [List.foldl_cons, awaitAllStep_of_none await1 ids init a hna]
    rw [ih (init.set a (await1 (ids.getD a 0)).1) j
      (fun i hi => ⟨(hmem i (by simp [hi])).1, by
        have := (hmem i (by simp [hi])).2
        simpa using this⟩)]
    by_cases hjrest : j ∈ rest
    · simp [hjrest]
    · by_cases hja : j = a
      · subst hja
        simp [hjrest, List.getElem?_set_eq_of_lt _ hlen]
      · simp [hjrest, hja, List.getElem?_set_ne (fun h => hja h.symm)]

/-- C8: whenever every Await in the group succeeds, AwaitAll returns, for
every completion order of the waiters, an output slice of the same length
as the input whose entry at position i is the TaskRecord from awaiting the
input ID at position i, with no error; the empty input returns the nil
slice (an empty list) and no error. -/
theorem c8_awaitall_order (await1 : ID → Task × Option GErr) (ids : List ID)
    (order : List Nat)
    (hperm : order.Perm (List.range ids.length))
    (hok : ∀ id ∈ ids, (await1 id).2 = none) :
    (ids = [] → AwaitAll await1 ids order = (none, none)) ∧
    (ids ≠ [] → ∃ l, AwaitAll await1 ids order = (some l, none) ∧
      l.length = ids.length ∧
      (∀ j, j < ids.length → l[j]? = some (await1 (ids.getD j 0)).1)) := by
  constructor
  · intro h
    subst h
    simp [AwaitAll]
  · intro hne
    have hmemlt : ∀ i ∈ order, i < ids.length := by
      intro i hi
      have : i ∈ List.range ids.length := hperm.mem_iff.mp hi
      simpa using this
    have hgd : ∀ i, i < ids.length → (await1 (ids.getD i 0)).2 = none := by
      intro i hi
      apply hok
      rw [getD_of_lt ids i hi]
      exact List.getElem_mem hi
    have herrs : awaitAllErrs await1 ids order = [] := by
      rw [awaitAllErrs, List.filterMap_eq_nil_iff]
      intro i hi
      rw [hgd i (hmemlt i hi)]
      rfl
    refine ⟨awaitAllFill await1 ids order, ?_, ?_, ?_⟩
    · rw [AwaitAll]
      have : ids.isEmpty = false := by
        cases ids with
        | nil => exact absurd rfl hne
        | cons a l => rfl
      rw [this]
      simp [herrs]
    · rw [awaitAllFill, fill_aux_length]
      exact List.length_replicate ids.length zeroTask
    · intro j hj
      have hjord : j ∈ order := hperm.mem_iff.mpr (by simpa using hj)
      rw [awaitAllFill, fill_aux_get await1 ids order (List.replicate ids.length zeroTask) j
        (fun i hi => ⟨by rw [hgd i (hmemlt i hi)]; rfl, by
          simpa using hmemlt i hi⟩)]
      simp [hjord]

theorem c8_awaitall_order_witness :
    ∃ l, AwaitAll w8await [5, 6] [1, 0] = (some l, none) ∧
      l.length = 2 ∧ (∀ j, j < 2 → l[j]? = some (w8await ([5, 6].getD j 0)).1) :=
  (c8_awaitall_order w8await [5, 6] [1, 0] (by decide) (by decide)).2 (by decide)

theorem Await_unfold (env : Nat → RunOutcome) (start dur fuel : Nat) (actx : AwaitCtx)
    (tm : Manager) (taskID : ID) :
    Manager.Await env start dur (fuel + 1) actx tm taskID =
      match alookup taskID tm.tasks with
      | none => (.res zeroTask (some .taskNotFound), tm)
      | some (.deferE d) =>
        match d.promoted with
        | none =>
          Manager.Await env start dur fuel actx
            (promoteState env start dur tm taskID d)
            (Manager.Async env start dur d.ctxFired tm d.runnable).1
        | some pid => Manager.Await env start dur fuel actx tm pid
      | some (.asyncE a) =>
        if a.done && (!actx.fired || actx.selDone) then
          match a.result.error with
          | some e => (.res a.result (some (.awaitFailed taskID e)), tm)
          | none => (.res a.result none, tm)
        else if actx.fired then
          if actx.deadline then
            (.res zeroTask (some (.awaitTimeout taskID)), (tm.Cancel taskID).2)
          else
            (.res zeroTask (some (.awaitCanceled taskID .ctxCanceled)), (tm.Cancel taskID).2)
        else (.blocked, tm) := rfl

/-- C4: the first Await of a deferred entry runs its one-shot promotion,
invoking Async with the captured runnable and the captured submission
scope; the promoted ID (the ID Async returns) is recorded in the entry,
the runnable is executed exactly once, and the call continues as an Await
of the promoted ID under the current await scope.  A second Await of the
deferred ID observes the same recorded promoted ID and becomes the same
Await of that promoted ID, and that Await leaves the state unchanged, so
no further execution happens and both awaiters obtain identical
results. -/
theorem c4_defer_promotion (env : Nat → RunOutcome) (start dur fuel : Nat)
    (actx : AwaitCtx) (tm : Manager) (did r : ID)
    (hD : alookup did tm.tasks =
      some (.deferE { runnable := r, ctxFired := false, promoted := none }))
    (hsd : tm.shuttingDown = false)
    (hfresh : did ≠ tm.nextId)
    (hlive : actx.fired = false) :
    (Manager.Async env start dur false tm r).1 = tm.nextId ∧
    (promoteState env start dur tm did ⟨r, false, none⟩).execLog = r :: tm.execLog ∧
    alookup did (promoteState env start dur tm did ⟨r, false, none⟩).tasks =
      some (.deferE ⟨r, false, some tm.nextId⟩) ∧
    Manager.Await env start dur (fuel + 1 + 1) actx tm did =
      Manager.Await env start dur (fuel + 1) actx
        (promoteState env start dur tm did ⟨r, false, none⟩) tm.nextId ∧
    Manager.Await env start dur (fuel + 1 + 1) actx
        (promoteState env start dur tm did ⟨r, false, none⟩) did =
      Manager.Await env start dur (fuel + 1) actx
        (promoteState env start dur tm did ⟨r, false, none⟩) tm.nextId ∧
    (Manager.Await env start dur (fuel + 1) actx
        (promoteState env start dur tm did ⟨r, false, none⟩) tm.nextId).2 =
      promoteState env start dur tm did ⟨r, false, none⟩ := by
  have hAsync1 : (Manager.Async env start dur false tm r).1 = tm.nextId := by
    simp [Manager.Async, hsd]
  have hExec : (promoteState env start dur tm did ⟨r, false, none⟩).execLog =
      r :: tm.execLog := by
    simp [promoteState, Manager.Async, hsd]
  have hRec : alookup did (promoteState env start dur tm did ⟨r, false, none⟩).tasks =
      some (.deferE ⟨r, false, some tm.nextId⟩) := by
    simp [promoteState, alookup_astore_self, hAsync1]
  have hpid_entry :
      alookup tm.nextId (promoteState env start dur tm did ⟨r, false, none⟩).tasks =
        some (.asyncE { result := (runWorker tm.nextId start dur (env r)).task,
                        done := true }) := by
    simp [promoteState, Manager.Async, hsd, alookup_astore_ne (Ne.symm hfresh),
      alookup_astore_self]
  have hFirst : Manager.Await env start dur (fuel + 1 + 1) actx tm did =
      Manager.Await env start dur (fuel + 1) actx
        (promoteState env start dur tm did ⟨r, false, none⟩) tm.nextId := by
    rw [Await_unfold env start dur (fuel + 1) actx tm did]
    simp only [hD]
    rw [hAsync1]
  have hSecond : Manager.Await env start dur (fuel + 1 + 1) actx
      (promoteState env start dur tm did ⟨r, false, none⟩) did =
      Manager.Await env start dur (fuel + 1) actx
        (promoteState env start dur tm did ⟨r, false, none⟩) tm.nextId := by
    rw [Await_unfold env start dur (fuel + 1) actx _ did]
    simp only [hRec]
  have hStable : (Manager.Await env start dur (fuel + 1) actx
      (promoteState env start dur tm did ⟨r, false, none⟩) tm.nextId).2 =
      promoteState env start dur tm did ⟨r, false, none⟩ := by
    rw [Await_unfold env start dur fuel actx _ tm.nextId]
    simp only [hpid_entry, hlive]
    cases herr : (runWorker tm.nextId start dur (env r)).task.error <;> simp [herr]
  exact ⟨hAsync1, hExec, hRec, hFirst, hSecond, hStable⟩

theorem c4_defer_promotion_witness :
    (promoteState env0 10 1 deferManager 7 ⟨0, false, none⟩).execLog = [0] ∧
    Manager.Await env0 10 1 2 liveCtx deferManager 7 =
      Manager.Await env0 10 1 1 liveCtx
        (promoteState env0 10 1 deferManager 7 ⟨0, false, none⟩) 8 :=
  ⟨(c4_defer_promotion env0 10 1 0 liveCtx deferManager 7 0 rfl rfl (by decide) rfl).2.1,
   (c4_defer_promotion env0 10 1 0 liveCtx deferManager 7 0 rfl rfl
     (by decide) rfl).2.2.2.1⟩

theorem c3_worker_amended_witness :
    (runWorker 1 10 2 ocOk).status = .completed ∧
    (runWorker 1 10 2 ocPanic).task.error = some (.panickedWrap 3) ∧
    alookup 2 (Manager.Async env0 10 2 false sampleManager 0).2.tasksResult =
      some (runWorker 2 10 2 (env0 0)).task :=
  ⟨(((c3_worker_amended 1 10 2 ocOk).1 rfl).1).mpr (by decide),
   ((c3_worker_amended 1 10 2 ocPanic).2.1 3 rfl).2.1,
   ((c3_worker_amended 2 10 2 (env0 0)).2.2.2.2 env0 sampleManager 0 rfl rfl).1⟩

end Asynctask
